import Mathlib

/-!
Formal model of the ckekula/hex-chess engine: hexagonal board, move
generation, evaluation and alpha-beta search, with theorems checking the
natural-language specification against the code.

Python sources modelled: `main.py` (HexBoard, move_piece),
`move_validator.py` (MoveValidator), `src/evaluation.py` (Evaluator, PSTs),
`src/ai_engine.py` (HexChessEngine).  The modules `hex_board.py` and
`game.py` (MoveGenerator, and the MoveValidator carrying `simulate_move`,
`is_in_check`, `get_game_status`) are not in the repository snapshot; the
definitions standing in for them are marked `Modelled from the spec:`.
-/

namespace HexChess

/-- Piece colour, the `"white"` / `"black"` strings of the Python code. -/
inductive Color where
  | white
  | black
deriving DecidableEq, Repr

/-- Turn flip, `"black" if turn == "white" else "white"`. -/
def Color.other : Color → Color
  | .white => .black
  | .black => .white

/-- Piece kind, the `piece_name` strings of the Python code. -/
inductive PieceKind where
  | pawn
  | knight
  | bishop
  | rook
  | queen
  | king
deriving DecidableEq, Repr

/-- A piece is a `(color, piece_name)` pair, as in `HexTile.piece`. -/
abbrev Piece := Color × PieceKind

/-- Axial coordinate `(q, r)`. -/
abbrev Coord := Int × Int

/-- The tile set generated by `HexBoard._generate_tiles` with `size = 6`:
`q ∈ [-5, 5]` and `r ∈ [max(-5, -q-5), min(5, -q+5)]`. -/
def onBoard (c : Coord) : Bool :=
  decide (-5 ≤ c.1) && decide (c.1 ≤ 5) &&
  decide (max (-5) (-c.1 - 5) ≤ c.2) && decide (c.2 ≤ min 5 (-c.1 + 5))

/-- Board state: occupancy of every tile plus `current_turn`
(the `HexBoard` of `hex_board.py`, whose tiles dictionary maps each
on-board coordinate to an optional piece). -/
structure Board where
  piece : Coord → Option Piece
  current_turn : Color

/-- `HexBoard.get_tile`: `some tile` when the coordinate is on the board
(the tile itself holds an optional piece), `none` otherwise. -/
def get_tile (b : Board) (c : Coord) : Option (Option Piece) :=
  if onBoard c then some (b.piece c) else none

/-- `MoveValidator._is_valid_tile`. -/
def is_valid_tile (b : Board) (c : Coord) : Bool :=
  (get_tile b c).isSome

/-- `MoveValidator._is_empty`. -/
def is_empty (b : Board) (c : Coord) : Bool :=
  match get_tile b c with
  | some p => p.isNone
  | none => false

/-- `MoveValidator._is_enemy`. -/
def is_enemy (b : Board) (c : Coord) (friendly : Color) : Bool :=
  match get_tile b c with
  | some (some (pc, _)) => decide (pc ≠ friendly)
  | _ => false

/-- `MoveValidator._can_capture`. -/
def can_capture (b : Board) (c : Coord) (friendly : Color) : Bool :=
  is_enemy b c friendly

/-- `MoveValidator.HEX_DIRECTIONS`. -/
def HEX_DIRECTIONS : List Coord :=
  [(1, 0), (-1, 0), (0, 1), (0, -1), (1, -1), (-1, 1)]

/-- `MoveValidator.DIAGONAL_DIRECTIONS`. -/
def DIAGONAL_DIRECTIONS : List Coord :=
  [(2, -1), (-2, 1), (1, 1), (-1, -1), (1, -2), (-1, 2)]

/-- The `forward_dirs` of `MoveValidator._get_pawn_moves`. -/
def pawn_forward_dirs : Color → List Coord
  | .white => [(0, -1), (1, -1), (-1, 0)]
  | .black => [(0, 1), (-1, 1), (1, 0)]

/-- The `capture_dirs` of `MoveValidator._get_pawn_moves`. -/
def pawn_capture_dirs : Color → List Coord
  | .white => [(1, -2), (-1, 1), (1, 1)]
  | .black => [(-1, 2), (1, -1), (-1, -1)]

/-- The effective `knight_jumps` list of `MoveValidator._get_knight_moves`
(the second assignment, which overwrites the first). -/
def knight_jumps : List Coord :=
  [(2, -1), (-2, 1), (1, -2), (-1, 2),
   (1, 1), (-1, -1), (2, 1), (-2, -1),
   (1, 2), (-1, -2), (3, -1), (-3, 1),
   (3, -2), (-3, 2), (2, -3), (-2, 3)]

/-- `MoveValidator._get_pawn_moves`: forward moves to empty tiles, then
capture moves to enemy-occupied tiles. -/
def get_pawn_moves (b : Board) (q r : Int) (color : Color) : List Coord :=
  ((pawn_forward_dirs color).map (fun d => (q + d.1, r + d.2))).filter
    (fun c => is_valid_tile b c && is_empty b c) ++
  ((pawn_capture_dirs color).map (fun d => (q + d.1, r + d.2))).filter
    (fun c => is_valid_tile b c && can_capture b c color)

/-- `MoveValidator._get_knight_moves`. -/
def get_knight_moves (b : Board) (q r : Int) (color : Color) : List Coord :=
  (knight_jumps.map (fun d => (q + d.1, r + d.2))).filter
    (fun c => is_valid_tile b c && (is_empty b c || can_capture b c color))

/-- One ray of `MoveValidator._get_sliding_moves`: step while tiles are
valid, collecting empty tiles, stopping at the first occupied tile and
including it when it is an enemy.  The fuel bound 11 exceeds the longest
possible on-board ray (10 steps for a unit direction across 11 columns),
so the fuel never cuts the Python `while` loop short. -/
def slide_ray (b : Board) (color : Color) (d : Coord) : Nat → Coord → List Coord
  | 0, _ => []
  | fuel + 1, c =>
    if is_valid_tile b c then
      if is_empty b c then c :: slide_ray b color d fuel (c.1 + d.1, c.2 + d.2)
      else if can_capture b c color then [c]
      else []
    else []

/-- `MoveValidator._get_sliding_moves`. -/
def get_sliding_moves (b : Board) (q r : Int) (color : Color)
    (dirs : List Coord) : List Coord :=
  dirs.flatMap (fun d => slide_ray b color d 11 (q + d.1, r + d.2))

/-- `MoveValidator._get_bishop_moves`. -/
def get_bishop_moves (b : Board) (q r : Int) (color : Color) : List Coord :=
  get_sliding_moves b q r color DIAGONAL_DIRECTIONS

/-- `MoveValidator._get_rook_moves`. -/
def get_rook_moves (b : Board) (q r : Int) (color : Color) : List Coord :=
  get_sliding_moves b q r color HEX_DIRECTIONS

/-- `MoveValidator._get_queen_moves`. -/
def get_queen_moves (b : Board) (q r : Int) (color : Color) : List Coord :=
  get_sliding_moves b q r color (HEX_DIRECTIONS ++ DIAGONAL_DIRECTIONS)

/-- `MoveValidator._get_king_moves`. -/
def get_king_moves (b : Board) (q r : Int) (color : Color) : List Coord :=
  ((HEX_DIRECTIONS ++ DIAGONAL_DIRECTIONS).map (fun d => (q + d.1, r + d.2))).filter
    (fun c => is_valid_tile b c && (is_empty b c || can_capture b c color))

/-- The per-kind dispatch of `MoveValidator.get_legal_moves`. -/
def piece_moves (b : Board) (q r : Int) (color : Color) : PieceKind → List Coord
  | .pawn => get_pawn_moves b q r color
  | .knight => get_knight_moves b q r color
  | .bishop => get_bishop_moves b q r color
  | .rook => get_rook_moves b q r color
  | .queen => get_queen_moves b q r color
  | .king => get_king_moves b q r color

/-- `MoveValidator.get_legal_moves` of `move_validator.py`: empty for a
missing tile, an empty tile, or a piece that is not `current_turn`'s
(the validator's own turn field, passed here as `turn`). -/
def get_legal_moves (b : Board) (turn : Color) (q r : Int) : List Coord :=
  match get_tile b (q, r) with
  | some (some (pc, pk)) => if pc = turn then piece_moves b q r pc pk else []
  | _ => []

/-- Integer interval `[lo, hi]` as a list, matching a Python `range`. -/
def int_range (lo hi : Int) : List Int :=
  (List.range (hi - lo + 1).toNat).map (fun i => lo + i)

/-- The 91 on-board coordinates in the insertion order of
`HexBoard._generate_tiles` (the iteration order of `board.tiles.items()`). -/
def allCells : List Coord :=
  (int_range (-5) 5).flatMap (fun q =>
    (int_range (max (-5) (-q - 5)) (min 5 (-q + 5))).map (fun r => (q, r)))

/-- `HexChessEngine._make_move` without the tile-existence requirement:
read the moving and captured pieces, write the destination, clear the
source, flip the turn.  Returns the new board with the `(piece, captured)`
record. -/
def make_move_t (b : Board) (fq fr tq tr : Int) :
    Board × Option Piece × Option Piece :=
  let piece := b.piece (fq, fr)
  let captured := b.piece (tq, tr)
  let f : Coord → Option Piece := fun x =>
    if x = (fq, fr) then none else if x = (tq, tr) then piece else b.piece x
  (⟨f, b.current_turn.other⟩, piece, captured)

/-- `HexChessEngine._undo_move` without the tile-existence requirement. -/
def undo_move_t (b : Board) (fq fr tq tr : Int)
    (piece captured : Option Piece) : Board :=
  let f : Coord → Option Piece := fun x =>
    if x = (tq, tr) then captured else if x = (fq, fr) then piece else b.piece x
  ⟨f, b.current_turn.other⟩

/-- `HexChessEngine._make_move`: the Python code dereferences both tiles,
so it only completes when both coordinates are on the board. -/
def make_move (b : Board) (fq fr tq tr : Int) :
    Option (Board × Option Piece × Option Piece) :=
  match get_tile b (fq, fr), get_tile b (tq, tr) with
  | some _, some _ => some (make_move_t b fq fr tq tr)
  | _, _ => none

/-- `HexChessEngine._undo_move`, fallible like `make_move`. -/
def undo_move (b : Board) (fq fr tq tr : Int)
    (piece captured : Option Piece) : Option Board :=
  match get_tile b (fq, fr), get_tile b (tq, tr) with
  | some _, some _ => some (undo_move_t b fq fr tq tr piece captured)
  | _, _ => none

/-- Modelled from the spec: `MoveGenerator.get_legal_moves` of the missing
`game` module — the pseudo-legal generator (§4.3), with no turn
restriction (the evaluator counts it for both colours on one board,
§4.6). -/
def gen_legal_moves (b : Board) (q r : Int) : List Coord :=
  match get_tile b (q, r) with
  | some (some (pc, pk)) => piece_moves b q r pc pk
  | _ => []

/-- Modelled from the spec: the attack query of the missing `game` module
(§4.3) — the pseudo-legal targets of the piece at `(q, r)`, where a pawn
threatens its capture cells even when they are empty and its forward cells
never. -/
def attack_targets (b : Board) (q r : Int) : List Coord :=
  match get_tile b (q, r) with
  | some (some (pc, pk)) =>
    match pk with
    | .pawn => ((pawn_capture_dirs pc).map (fun d => (q + d.1, r + d.2))).filter
        (fun c => is_valid_tile b c)
    | k => piece_moves b q r pc k
  | _ => []

/-- Modelled from the spec: `is_attacked(coord, by_color)` (§4.3) — some
piece of `byColor` has `target` among its pseudo-legal attack targets. -/
def is_attacked (b : Board) (target : Coord) (byColor : Color) : Bool :=
  allCells.any (fun c =>
    match get_tile b c with
    | some (some (pc, _)) =>
      pc = byColor && (attack_targets b c.1 c.2).contains target
    | _ => false)

/-- Modelled from the spec: locate the king of a colour (§4.4 step 2). -/
def king_coord (b : Board) (color : Color) : Option Coord :=
  allCells.find? (fun c =>
    decide (get_tile b c = some (some (color, PieceKind.king))))

/-- Modelled from the spec: `is_in_check` of the missing `game` module
(§4.5): the king's cell is attacked by the other colour.  A board with no
king of that colour is not in check. -/
def in_check (b : Board) (color : Color) : Bool :=
  match king_coord b color with
  | some k => is_attacked b k color.other
  | none => false

/-- Modelled from the spec: `simulate_move` of the missing `game` module
(§4.4) — apply the move on a scratch board and test that the mover's own
king is not attacked. -/
def simulate_move (b : Board) (color : Color) (fq fr tq tr : Int) : Bool :=
  !(in_check (make_move_t b fq fr tq tr).1 color)

/-- A move as `(from, to)` coordinates, the
`(from_q, from_r, to_q, to_r)` tuples of `ai_engine.py`. -/
abbrev Move := Coord × Coord

/-- `HexChessEngine._get_all_legal_moves`: for every tile holding a piece
of `color`, the generator's moves that pass `simulate_move`. -/
def get_all_legal_moves (b : Board) (color : Color) : List Move :=
  allCells.flatMap (fun c =>
    match get_tile b c with
    | some (some (pc, _)) =>
      if pc = color then
        ((gen_legal_moves b c.1 c.2).filter
          (fun t => simulate_move b color c.1 c.2 t.1 t.2)).map (fun t => (c, t))
      else []
    | _ => [])

/-- `HexChessEngine._get_capture_moves`: like `get_all_legal_moves` but
keeping only moves whose target tile holds a piece. -/
def get_capture_moves (b : Board) (color : Color) : List Move :=
  allCells.flatMap (fun c =>
    match get_tile b c with
    | some (some (pc, _)) =>
      if pc = color then
        ((gen_legal_moves b c.1 c.2).filter (fun t =>
          (match get_tile b t with
           | some (some _) => true
           | _ => false) && simulate_move b color c.1 c.2 t.1 t.2)).map
          (fun t => (c, t))
      else []
    | _ => [])

/-- Game status as returned by the missing `get_game_status`. -/
inductive GameStatus where
  | inProgress
  | check
  | checkmate
  | stalemate
deriving DecidableEq, Repr

/-- Modelled from the spec: `get_game_status` of the missing `game` module
(§4.5) — no legal moves means checkmate when in check, stalemate
otherwise; with legal moves, check or in-progress. -/
def get_game_status (b : Board) : GameStatus :=
  if (get_all_legal_moves b b.current_turn).isEmpty then
    if in_check b b.current_turn then .checkmate else .stalemate
  else
    if in_check b b.current_turn then .check else .inProgress

/-- `HexBoard.move_piece` of `main.py`: moves whenever both tiles exist,
the source is occupied and the two tiles differ; no legality or turn
check.  Returns the `bool` result with the (possibly unchanged) board. -/
def move_piece (b : Board) (fq fr tq tr : Int) : Bool × Board :=
  match get_tile b (fq, fr), get_tile b (tq, tr) with
  | some fp, some _ =>
    if fp.isSome && decide ((fq, fr) ≠ (tq, tr)) then
      (true, ⟨fun x =>
        if x = (fq, fr) then none
        else if x = (tq, tr) then b.piece (fq, fr)
        else b.piece x, b.current_turn⟩)
    else (false, b)
  | _, _ => (false, b)

/-- Build a board from a placement list, white to move unless stated. -/
def mk_board (ps : List (Coord × Piece)) (turn : Color := .white) : Board :=
  ⟨fun c => (ps.find? (fun p => decide (p.1 = c))).map (fun p => p.2), turn⟩

/-- The initial position of `main.py` / `constants.py`. -/
def initial_placements : List (Coord × Piece) :=
  [((1, 4), (.white, .king)), ((-1, 5), (.white, .queen)),
   ((3, 2), (.white, .rook)), ((-3, 5), (.white, .rook)),
   ((2, 3), (.white, .knight)), ((-2, 5), (.white, .knight)),
   ((0, 5), (.white, .bishop)), ((0, 4), (.white, .bishop)),
   ((0, 3), (.white, .bishop)),
   ((-4, 5), (.white, .pawn)), ((-3, 4), (.white, .pawn)),
   ((-2, 3), (.white, .pawn)), ((-1, 2), (.white, .pawn)),
   ((0, 1), (.white, .pawn)), ((1, 1), (.white, .pawn)),
   ((2, 1), (.white, .pawn)), ((3, 1), (.white, .pawn)),
   ((4, 1), (.white, .pawn)),
   ((1, -5), (.black, .king)), ((-1, -4), (.black, .queen)),
   ((3, -5), (.black, .rook)), ((-3, -2), (.black, .rook)),
   ((2, -5), (.black, .knight)), ((-2, -3), (.black, .knight)),
   ((0, -5), (.black, .bishop)), ((0, -4), (.black, .bishop)),
   ((0, -3), (.black, .bishop)),
   ((4, -5), (.black, .pawn)), ((3, -4), (.black, .pawn)),
   ((2, -3), (.black, .pawn)), ((1, -2), (.black, .pawn)),
   ((0, -1), (.black, .pawn)), ((-1, -1), (.black, .pawn)),
   ((-2, -1), (.black, .pawn)), ((-3, -1), (.black, .pawn)),
   ((-4, -1), (.black, .pawn))]

/-- The initial board, white to move. -/
def initialBoard : Board := mk_board initial_placements

/-- `PIECE_VALUES` of `evaluation.py`, in centipawns. -/
def PIECE_VALUES : PieceKind → Int
  | .pawn => 100
  | .knight => 320
  | .bishop => 330
  | .rook => 500
  | .queen => 900
  | .king => 20000

/-- `HexPieceSquareTables._distance_from_center`:
`(abs q + abs r + abs (-q - r)) / 2`, an exact integer. -/
def hex_dist (q r : Int) : Nat :=
  (q.natAbs + r.natAbs + (q + r).natAbs) / 2

/-- The pawn piece-square table of `_initialize_tables` (0 off-board). -/
def pst_pawn (q r : Int) : Int :=
  if onBoard (q, r) then
    (if q.natAbs ≤ 1 then 10 else if q.natAbs ≤ 2 then 5 else 0) +
    (if 5 ≤ hex_dist q r then -10 else 0)
  else 0

/-- The knight piece-square table. -/
def pst_knight (q r : Int) : Int :=
  if onBoard (q, r) then
    if hex_dist q r ≤ 1 then 40
    else if hex_dist q r ≤ 2 then 20
    else if hex_dist q r ≤ 3 then 0
    else if hex_dist q r ≤ 4 then -20
    else -40
  else 0

/-- The bishop piece-square table. -/
def pst_bishop (q r : Int) : Int :=
  if onBoard (q, r) then
    (if hex_dist q r ≤ 1 then 25
     else if hex_dist q r ≤ 2 then 15
     else if hex_dist q r ≤ 3 then 5
     else -5) +
    (if (q - r).natAbs ≤ 1 then 10 else 0)
  else 0

/-- The rook piece-square table. -/
def pst_rook (q r : Int) : Int :=
  if onBoard (q, r) then
    (if hex_dist q r ≤ 2 then 10 else 0) +
    (if q.natAbs ≤ 1 then 10 else 0) +
    (if r.natAbs ≤ 1 then 10 else 0)
  else 0

/-- The queen piece-square table. -/
def pst_queen (q r : Int) : Int :=
  if onBoard (q, r) then
    if hex_dist q r ≤ 1 then 15
    else if hex_dist q r ≤ 2 then 10
    else if hex_dist q r ≤ 3 then 5
    else -10
  else 0

/-- The opening/middlegame king piece-square table. -/
def pst_king_opening (q r : Int) : Int :=
  if onBoard (q, r) then
    if 4 ≤ hex_dist q r then 30
    else if 3 ≤ hex_dist q r then 10
    else -20
  else 0

/-- The endgame king piece-square table. -/
def pst_king_endgame (q r : Int) : Int :=
  if onBoard (q, r) then
    if hex_dist q r ≤ 1 then 40
    else if hex_dist q r ≤ 2 then 20
    else if hex_dist q r ≤ 3 then 0
    else -20
  else 0

/-- `HexPieceSquareTables.get_value`: table lookup, pawn advancement
bonus, sign flip for black. -/
def pst_get_value (name : PieceKind) (q r : Int) (color : Color)
    (endgame : Bool) : Int :=
  let base : Int :=
    match name with
    | .king => if endgame then pst_king_endgame q r else pst_king_opening q r
    | .pawn => pst_pawn q r
    | .knight => pst_knight q r
    | .bishop => pst_bishop q r
    | .rook => pst_rook q r
    | .queen => pst_queen q r
  let base : Int :=
    if name = .pawn then
      base + max 0 (if color = .white then -r * 5 else r * 5)
    else base
  if color = .black then -base else base

/-- `Evaluator.count_material`: the `(white, black)` material totals. -/
def count_material (b : Board) : Int × Int :=
  allCells.foldl (fun acc c =>
    match get_tile b c with
    | some (some (.white, name)) => (acc.1 + PIECE_VALUES name, acc.2)
    | some (some (.black, name)) => (acc.1, acc.2 + PIECE_VALUES name)
    | _ => acc) (0, 0)

/-- The per-kind entries of the `piece_count` dictionary built by
`count_material`. -/
def count_color_kind (b : Board) (color : Color) (kind : PieceKind) : Nat :=
  (allCells.filter (fun c =>
    decide (get_tile b c = some (some (color, kind))))).length

/-- The total number of pieces on the board (`total_pieces` of
`Evaluator.is_endgame`). -/
def total_piece_count (b : Board) : Nat :=
  (allCells.filter (fun c =>
    match get_tile b c with
    | some (some _) => true
    | _ => false)).length

/-- `Evaluator.is_endgame`: both queens gone, or fewer than 12 pieces. -/
def is_endgame (b : Board) : Bool :=
  (count_color_kind b .white .queen = 0 &&
   count_color_kind b .black .queen = 0) ||
  total_piece_count b < 12

/-- `Evaluator._count_mobility`: total generator moves of a colour over
the board (the generator itself is spec-modelled, see
`gen_legal_moves`). -/
def count_mobility (b : Board) (color : Color) : Nat :=
  allCells.foldl (fun acc c =>
    match get_tile b c with
    | some (some (pc, _)) =>
      if pc = color then acc + (gen_legal_moves b c.1 c.2).length else acc
    | _ => acc) 0

/-- The PST loop of `Evaluator.evaluate_position`. -/
def pst_sum (b : Board) : Int :=
  allCells.foldl (fun acc c =>
    match get_tile b c with
    | some (some (color, name)) =>
      acc + pst_get_value name c.1 c.2 color (is_endgame b)
    | _ => acc) 0

/-- The mobility term of `Evaluator.evaluate_position`:
`(white_mobility - black_mobility) * 2`. -/
def mobility_diff (b : Board) : Int :=
  ((count_mobility b .white : Int) - (count_mobility b .black : Int)) * 2

/-- The check term of `Evaluator.evaluate_position`: `-50` when White is
in check, `+50` when Black is. -/
def check_sum (b : Board) : Int :=
  (if in_check b .white then (-50 : Int) else 0) +
  (if in_check b .black then (50 : Int) else 0)

/-- `Evaluator.evaluate_position`: terminal scores for
checkmate/stalemate, otherwise material + piece-square tables + mobility
+ check bonus, from White's view. -/
def evaluate_position (b : Board) : Int :=
  if get_game_status b = .checkmate then
    if b.current_turn = .white then -100000 else 100000
  else if get_game_status b = .stalemate then 0
  else
    ((count_material b).1 - (count_material b).2) + pst_sum b +
      mobility_diff b + check_sum b

/-- The signed material sum named by the spec's evaluator description
(§4.6 item 1). -/
def material_diff (b : Board) : Int :=
  (allCells.map (fun c =>
    match get_tile b c with
    | some (some (color, name)) =>
      if color = .white then PIECE_VALUES name else -PIECE_VALUES name
    | _ => 0)).sum

/-- The center-control term claimed by the spec (§4.6 item 2): `±10` per
non-king piece within hex distance 2 of the origin. -/
def center_control (b : Board) : Int :=
  (allCells.map (fun c =>
    match get_tile b c with
    | some (some (color, name)) =>
      if name = PieceKind.king then 0
      else if hex_dist c.1 c.2 ≤ 2 then
        (if color = .white then (10 : Int) else -10)
      else 0
    | _ => 0)).sum

/-- The evaluator the spec claims (§4.6 items 1-3): material +
center control + mobility, and nothing else. -/
def evaluate_spec (b : Board) : Int :=
  material_diff b + center_control b + mobility_diff b

/-- Scores as the search sees them: evaluation integers together with the
`float('-inf')` / `float('inf')` sentinels of `ai_engine.py`. -/
inductive XInt where
  | negInf
  | fin (n : Int)
  | posInf
deriving DecidableEq, Repr

/-- Comparison `a <= b` on scores. -/
def XInt.le : XInt → XInt → Bool
  | .negInf, _ => true
  | _, .posInf => true
  | .posInf, _ => false
  | .fin a, .fin b => decide (a ≤ b)
  | .fin _, .negInf => false

/-- Strict comparison `a < b` on scores. -/
def XInt.lt (a b : XInt) : Bool := !(XInt.le b a)

/-- Python `max` on scores. -/
def XInt.maxOf (a b : XInt) : XInt := if XInt.le a b then b else a

/-- Python `min` on scores. -/
def XInt.minOf (a b : XInt) : XInt := if XInt.le a b then a else b

/-- The mutable engine state threaded through the search: the board the
engine mutates in place, the index of the next deadline poll, and
`nodes_searched`. -/
structure SState where
  board : Board
  clockIdx : Nat
  nodes : Nat

/-- The wall clock, abstracted as the answers of the successive deadline
checks — `true` means the deadline has expired at that poll. -/
abbrev Clock := Nat → Bool

/-- Consume one deadline poll. -/
def tick (s : SState) : SState := { s with clockIdx := s.clockIdx + 1 }

/-- A search computation: returns a value and the updated state, or
propagates `TimeoutError` carrying the (mutated) state it left behind. -/
abbrev M (α : Type) := SState → Except SState (α × SState)

/-- The `move_score` key of `HexChessEngine._order_moves`: MVV-LVA for
captures, 0 otherwise. -/
def move_score (b : Board) (m : Move) : Int :=
  match get_tile b m.2 with
  | some (some (_, victim)) =>
    let attacker : Int :=
      match get_tile b m.1 with
      | some (some (_, moving)) => PIECE_VALUES moving
      | _ => 0
    PIECE_VALUES victim * 10 - attacker
  | _ => 0

/-- Stable descending insertion used to model Python's stable
`sorted(key=move_score, reverse=True)`. -/
def insert_desc (b : Board) (m : Move) : List Move → List Move
  | [] => [m]
  | x :: xs =>
    if move_score b x < move_score b m then m :: x :: xs
    else x :: insert_desc b m xs

/-- `HexChessEngine._order_moves`: a stable sort by descending
`move_score` (extensionally equal to Python's `sorted` with
`reverse=True`). -/
def order_moves (b : Board) (moves : List Move) : List Move :=
  moves.foldl (fun acc m => insert_desc b m acc) []

/-- `HexChessEngine._quiescence_search`: stand-pat cut, then capture-only
recursion with in-loop early returns.  It polls no deadline and counts no
nodes, exactly like the source. -/
def quiescence : Nat → XInt → XInt → Bool → M XInt
  | 0, _, _, _ => fun s => .ok (.fin (evaluate_position s.board), s)
  | d + 1, alpha, beta, is_max => fun s =>
    let stand_pat : XInt := .fin (evaluate_position s.board)
    if is_max && XInt.le beta stand_pat then .ok (beta, s)
    else if !is_max && XInt.le stand_pat alpha then .ok (alpha, s)
    else
      let alpha := if is_max then XInt.maxOf alpha stand_pat else alpha
      let beta := if is_max then beta else XInt.minOf beta stand_pat
      let color := if is_max then Color.white else Color.black
      let captures := get_capture_moves s.board color
      let res := captures.foldl (fun acc m =>
        match acc with
        | .error e => .error e
        | .ok (some v, a, b2, st) => .ok (some v, a, b2, st)
        | .ok (none, a, b2, st) =>
          let mk := make_move_t st.board m.1.1 m.1.2 m.2.1 m.2.2
          match quiescence d a b2 (!is_max) { st with board := mk.1 } with
          | .error e => .error e
          | .ok (score, st') =>
            let st2 := { st' with
              board := undo_move_t st'.board m.1.1 m.1.2 m.2.1 m.2.2
                mk.2.1 mk.2.2 }
            if is_max then
              let a2 := XInt.maxOf a score
              if XInt.le b2 a2 then .ok (some b2, a2, b2, st2)
              else .ok (none, a2, b2, st2)
            else
              let b3 := XInt.minOf b2 score
              if XInt.le b3 a then .ok (some a, a, b3, st2)
              else .ok (none, a, b3, st2))
        (Except.ok (none, alpha, beta, s))
      match res with
      | .error e => .error e
      | .ok (some v, _, _, st) => .ok (v, st)
      | .ok (none, a, b2, st) => .ok (if is_max then a else b2, st)

/-- `HexChessEngine._minimax`: count the node, poll the deadline (raising
`TimeoutError` on expiry), quiescence at depth 0, terminal and no-move
evaluation, then the alpha-beta loop over ordered legal moves.  Note the
deliberate fidelity to the source: when a recursive call raises, the
pending `_undo_move` of the loop is skipped. -/
def minimax (clock : Clock) : Nat → XInt → XInt → Bool → M XInt
  | 0, alpha, beta, is_max => fun s =>
    let s := tick { s with nodes := s.nodes + 1 }
    if clock (s.clockIdx - 1) then .error s
    else quiescence 2 alpha beta is_max s
  | d + 1, alpha, beta, is_max => fun s =>
    let s := tick { s with nodes := s.nodes + 1 }
    if clock (s.clockIdx - 1) then .error s
    else
      let status := get_game_status s.board
      if status = .checkmate || status = .stalemate then
        .ok (.fin (evaluate_position s.board), s)
      else
        let color := if is_max then Color.white else Color.black
        let moves := get_all_legal_moves s.board color
        if moves.isEmpty then .ok (.fin (evaluate_position s.board), s)
        else
          let moves := order_moves s.board moves
          let res := moves.foldl (fun acc m =>
            match acc with
            | .error e => .error e
            | .ok (true, a, b2, me, st) => .ok (true, a, b2, me, st)
            | .ok (false, a, b2, me, st) =>
              let mk := make_move_t st.board m.1.1 m.1.2 m.2.1 m.2.2
              match minimax clock d a b2 (!is_max) { st with board := mk.1 } with
              | .error e => .error e
              | .ok (score, st') =>
                let st2 := { st' with
                  board := undo_move_t st'.board m.1.1 m.1.2 m.2.1 m.2.2
                    mk.2.1 mk.2.2 }
                if is_max then
                  let me2 := XInt.maxOf me score
                  let a2 := XInt.maxOf a score
                  .ok (XInt.le b2 a2, a2, b2, me2, st2)
                else
                  let me2 := XInt.minOf me score
                  let b3 := XInt.minOf b2 score
                  .ok (XInt.le b3 a, a, b3, me2, st2))
            (Except.ok (false, alpha, beta,
              (if is_max then XInt.negInf else XInt.posInf), s))
          match res with
          | .error e => .error e
          | .ok (_, _, _, me, st) => .ok (me, st)

/-- `HexChessEngine._minimax_root`: no node count, a deadline poll before
every root move (raising `TimeoutError` on expiry), make / search / undo,
best-move bookkeeping with strict improvement, no beta cutoff.  Returns
the score together with the best move recorded on completion. -/
def minimax_root (clock : Clock) (depth : Nat) : M (XInt × Option Move) :=
  fun s =>
    let is_max := s.board.current_turn = Color.white
    let moves := order_moves s.board
      (get_all_legal_moves s.board s.board.current_turn)
    let res := moves.foldl (fun acc m =>
      match acc with
      | .error e => .error e
      | .ok (a, b2, bs, bm, st) =>
        let st := tick st
        if clock (st.clockIdx - 1) then .error st
        else
          let mk := make_move_t st.board m.1.1 m.1.2 m.2.1 m.2.2
          match minimax clock (depth - 1) a b2 (!is_max) { st with board := mk.1 } with
          | .error e => .error e
          | .ok (score, st') =>
            let st2 := { st' with
              board := undo_move_t st'.board m.1.1 m.1.2 m.2.1 m.2.2
                mk.2.1 mk.2.2 }
            if is_max then
              let best := if XInt.lt bs score then (score, some m) else (bs, bm)
              .ok (XInt.maxOf a score, b2, best.1, best.2, st2)
            else
              let best := if XInt.lt score bs then (score, some m) else (bs, bm)
              .ok (a, XInt.minOf b2 score, best.1, best.2, st2))
      (Except.ok (XInt.negInf, XInt.posInf,
        (if is_max then XInt.negInf else XInt.posInf),
        (none : Option Move), s))
    match res with
    | .error e => .error e
    | .ok (_, _, bs, bm, st) => .ok ((bs, bm), st)

/-- The iterative-deepening loop of `HexChessEngine.get_best_move`: poll
the 0.9-deadline, run the root search, keep the best move of each
completed root call, stop (keeping the previous best) when a root call
raises `TimeoutError`. -/
def gbm_loop (clock : Clock) : List Nat → Option Move → SState →
    Option Move × SState
  | [], best, s => (best, s)
  | d :: rest, best, s =>
    let s := tick s
    if clock (s.clockIdx - 1) then (best, s)
    else
      match minimax_root clock d s with
      | .ok (r, s') => gbm_loop clock rest r.2 s'
      | .error s' => (best, s')

/-- The iteration depths `range(1, depth + 1)`. -/
def depth_list (depth : Nat) : List Nat :=
  (List.range depth).map (fun i => i + 1)

/-- Fresh engine state at the `get_best_move` entry. -/
def init_sstate (b : Board) : SState := ⟨b, 0, 0⟩

/-- `HexChessEngine.get_best_move`: iterative deepening from depth 1 to
`depth` under the abstracted clock; returns the chosen move and the final
engine state (whose board the caller observes). -/
def get_best_move (clock : Clock) (b : Board) (depth : Nat) :
    Option Move × SState :=
  gbm_loop clock (depth_list depth) none (init_sstate b)

/-- Modelled from the spec: the best moves of the completed
iterative-deepening iterations, in order (§4.7 cancellation: an iteration
counts as completed when its root call returns without `TimeoutError`).
The spec requires `get_best_move` to return the last entry of this
list. -/
def completed_bests (clock : Clock) : List Nat → SState → List (Option Move)
  | [], _ => []
  | d :: rest, s =>
    let s := tick s
    if clock (s.clockIdx - 1) then []
    else
      match minimax_root clock d s with
      | .ok (r, s') => r.2 :: completed_bests clock rest s'
      | .error _ => []

/-- The 12 knight offsets named by the spec (§4.1). -/
def knight_offsets_spec : List Coord :=
  [(3, -1), (3, -2), (2, 1), (1, 2), (-1, 3), (-2, 3),
   (-3, 1), (-3, 2), (-2, -1), (-1, -2), (1, -3), (2, -3)]

/-- Not occupied by a piece of `color` (used to phrase the spec's knight
landing rule). -/
def not_friendly (b : Board) (c : Coord) (color : Color) : Bool :=
  match get_tile b c with
  | some (some (pc, _)) => decide (pc ≠ color)
  | _ => true

/-- The king-safety claim P4 as stated, read against
`MoveValidator.get_legal_moves` of `move_validator.py`: no returned move
leaves the mover in check. -/
def claimC2 : Prop := ∀ (b : Board) (q r : Int) (t : Coord),
  t ∈ get_legal_moves b b.current_turn q r →
  in_check (make_move_t b q r t.1 t.2).1 b.current_turn = false

/-- The pawn-move claim as stated: one forward cell, two capture cells
per colour, nothing else. -/
def claimC4 : Prop :=
  (∀ (b : Board) (q r : Int),
    get_tile b (q, r) = some (some (Color.white, PieceKind.pawn)) →
    ∀ t ∈ get_legal_moves b Color.white q r,
      (t = (q, r - 1) ∧ is_empty b t = true) ∨
      (t ∈ [(q + 1, r - 1), (q - 1, r)] ∧ is_enemy b t Color.white = true)) ∧
  (∀ (b : Board) (q r : Int),
    get_tile b (q, r) = some (some (Color.black, PieceKind.pawn)) →
    ∀ t ∈ get_legal_moves b Color.black q r,
      (t = (q, r + 1) ∧ is_empty b t = true) ∨
      (t ∈ [(q - 1, r + 1), (q + 1, r)] ∧ is_enemy b t Color.black = true))

/-- The knight-move claim as stated: exactly the on-board, non-friendly
cells among the 12 spec offsets. -/
def claimC5 : Prop := ∀ (b : Board) (q r : Int) (c : Color),
  get_tile b (q, r) = some (some (c, PieceKind.knight)) →
  ∀ t : Coord,
    (t ∈ get_legal_moves b c q r ↔
      (∃ d ∈ knight_offsets_spec, t = (q + d.1, r + d.2)) ∧
        onBoard t = true ∧ not_friendly b t c = true)

/-- The evaluator claim as stated: on non-terminal boards the evaluation
is exactly material + center control + mobility. -/
def claimC6 : Prop := ∀ b : Board,
  get_game_status b ≠ .checkmate → get_game_status b ≠ .stalemate →
  evaluate_position b = evaluate_spec b

/-- The user-move claim as stated: a move outside the legal move list is
rejected with `false` and no state change. -/
def claimC9 : Prop := ∀ (b : Board) (fq fr tq tr : Int),
  (tq, tr) ∉ get_legal_moves b b.current_turn fq fr →
  move_piece b fq fr tq tr = (false, b)

/-- Two bare kings, white to move. -/
def B1 : Board :=
  mk_board [((0, 5), (.white, .king)), ((0, -5), (.black, .king))]

/-- A clock whose deadline expires at the third poll: `get_best_move`
passes its 0.9-poll, the root passes its first per-move poll, and the
first recursive `_minimax` entry raises. -/
def clk_c1 : Clock := fun i => decide (2 ≤ i)

/-- A pin: the white rook at (0,1) shields the white king at (0,0) from
the black rook at (0,2); white to move. -/
def B2 : Board :=
  mk_board [((0, 0), (.white, .king)), ((0, 1), (.white, .rook)),
            ((0, 2), (.black, .rook))]

/-- A lone white pawn at the origin with a black pawn on one of the
code's capture cells; white to move. -/
def B4 : Board :=
  mk_board [((0, 0), (.white, .pawn)), ((1, -2), (.black, .pawn))]

/-- A lone white knight at the origin; white to move. -/
def B5 : Board := mk_board [((0, 0), (.white, .knight))]

/-- A lone white knight at the origin (evaluator counterexample board);
white to move. -/
def B6 : Board := mk_board [((0, 0), (.white, .knight))]

/-- White king cornered at (0,5), checked by the rook on its file, every
escape cell covered: checkmate, white to move. -/
def Bmate : Board :=
  mk_board [((0, 5), (.white, .king)), ((0, 0), (.black, .rook)),
            ((1, 0), (.black, .rook)), ((-1, 0), (.black, .rook))]

/-- White king at (0,5) not in check but with every escape cell covered:
stalemate, white to move. -/
def Bstale : Board :=
  mk_board [((0, 5), (.white, .king)), ((4, 0), (.black, .rook)),
            ((1, 0), (.black, .rook)), ((-1, 0), (.black, .rook))]

theorem Color.other_other (c : Color) : c.other.other = c := by
  cases c <;> rfl

theorem is_valid_tile_eq_onBoard (b : Board) (c : Coord) :
    is_valid_tile b c = onBoard c := by
  unfold is_valid_tile get_tile
  cases h : onBoard c <;> simp [h]

theorem get_tile_some_onBoard {b : Board} {c : Coord} {o : Option Piece}
    (h : get_tile b c = some o) : onBoard c = true := by
  unfold get_tile at h
  cases hb : onBoard c
  · rw [hb] at h; simp at h
  · rfl

theorem slide_ray_onBoard {b : Board} {color : Color} {d : Coord} :
    ∀ {fuel : Nat} {c0 c : Coord}, c ∈ slide_ray b color d fuel c0 →
    onBoard c = true := by
  intro fuel
  induction fuel with
  | zero => intro c0 c h; simp [slide_ray] at h
  | succ n ih =>
    intro c0 c h
    rw [slide_ray] at h
    split at h
    · split at h
      · rcases List.mem_cons.mp h with h1 | h1
        · subst h1
          rename_i hv _
          rw [← is_valid_tile_eq_onBoard]; exact hv
        · exact ih h1
      · split at h
        · rcases List.mem_singleton.mp h with rfl
          rename_i hv _ _
          rw [← is_valid_tile_eq_onBoard]; exact hv
        · simp at h
    · simp at h

theorem mem_piece_moves_onBoard {b : Board} {q r : Int} {color : Color}
    {k : PieceKind} {c : Coord} (h : c ∈ piece_moves b q r color k) :
    onBoard c = true := by
  have slide : ∀ dirs, c ∈ get_sliding_moves b q r color dirs →
      onBoard c = true := by
    intro dirs hm
    unfold get_sliding_moves at hm
    rcases List.mem_flatMap.mp hm with ⟨d, _, hray⟩
    exact slide_ray_onBoard hray
  cases k with
  | pawn =>
    unfold piece_moves get_pawn_moves at h
    rcases List.mem_append.mp h with h1 | h1 <;>
    · have := (List.mem_filter.mp h1).2
      rw [← is_valid_tile_eq_onBoard]
      exact (Bool.and_eq_true _ _ |>.mp this).1
  | knight =>
    unfold piece_moves get_knight_moves at h
    have := (List.mem_filter.mp h).2
    rw [← is_valid_tile_eq_onBoard]
    exact (Bool.and_eq_true _ _ |>.mp this).1
  | king =>
    unfold piece_moves get_king_moves at h
    have := (List.mem_filter.mp h).2
    rw [← is_valid_tile_eq_onBoard]
    exact (Bool.and_eq_true _ _ |>.mp this).1
  | bishop => exact slide _ h
  | rook => exact slide _ h
  | queen => exact slide _ h

theorem mem_get_legal_moves_onBoard {b : Board} {turn : Color} {q r : Int}
    {c : Coord} (h : c ∈ get_legal_moves b turn q r) :
    onBoard c = true ∧ onBoard (q, r) = true := by
  unfold get_legal_moves at h
  rcases hg : get_tile b (q, r) with _ | op
  · rw [hg] at h; simp at h
  · rcases op with _ | ⟨pc, pk⟩
    · rw [hg] at h; simp at h
    · rw [hg] at h
      have h2 : c ∈ (if pc = turn then piece_moves b q r pc pk else []) := h
      by_cases hpc : pc = turn
      · rw [if_pos hpc] at h2
        exact ⟨mem_piece_moves_onBoard h2, get_tile_some_onBoard hg⟩
      · rw [if_neg hpc] at h2; simp at h2

theorem undo_make_t (b : Board) (fq fr tq tr : Int) :
    undo_move_t (make_move_t b fq fr tq tr).1 fq fr tq tr
      (make_move_t b fq fr tq tr).2.1 (make_move_t b fq fr tq tr).2.2 = b := by
  obtain ⟨f, t⟩ := b
  simp only [make_move_t, undo_move_t]
  congr 1
  · funext x
    by_cases h1 : x = (tq, tr)
    · simp [h1]
    · rw [if_neg h1]
      by_cases h2 : x = (fq, fr)
      · simp [h2]
      · rw [if_neg h2, if_neg h2, if_neg h1]
  · exact Color.other_other t

/-- C3: for every board and every move in the legal move list of the side
to move, `_make_move` followed by `_undo_move` (fed the `(piece,
captured)` record that `_make_move` returned) restores every tile's
occupancy and the side to move exactly. -/
theorem claim_C3_theorem (b : Board) (fq fr tq tr : Int)
    (h : (tq, tr) ∈ get_legal_moves b b.current_turn fq fr) :
    (make_move b fq fr tq tr).bind
      (fun x => undo_move x.1 fq fr tq tr x.2.1 x.2.2) = some b := by
  obtain ⟨htgt, hsrc⟩ := mem_get_legal_moves_onBoard h
  have hmk : make_move b fq fr tq tr = some (make_move_t b fq fr tq tr) := by
    unfold make_move get_tile
    rw [hsrc, htgt]
    rfl
  rw [hmk]
  show undo_move (make_move_t b fq fr tq tr).1 fq fr tq tr
      (make_move_t b fq fr tq tr).2.1 (make_move_t b fq fr tq tr).2.2 = some b
  unfold undo_move get_tile
  rw [hsrc, htgt]
  simp only [if_true]
  rw [undo_make_t]

/-- Witness for C3 at a concrete input: the initial position's pawn move
`(0,1) → (0,0)` round-trips to the initial board. -/
theorem claim_C3_witness :
    (make_move initialBoard 0 1 0 0).bind
      (fun x => undo_move x.1 0 1 0 0 x.2.1 x.2.2) = some initialBoard :=
  claim_C3_theorem initialBoard 0 1 0 0 (by decide)

/-- C10: `MoveValidator.get_legal_moves` is total and returns the empty
list when the coordinate is off-board, when the tile is empty, and when
the piece there does not belong to the side whose turn it is. -/
theorem claim_C10_theorem (b : Board) (turn : Color) (q r : Int) :
    (onBoard (q, r) = false → get_legal_moves b turn q r = []) ∧
    (b.piece (q, r) = none → get_legal_moves b turn q r = []) ∧
    (∀ pc pk, b.piece (q, r) = some (pc, pk) → pc ≠ turn →
      get_legal_moves b turn q r = []) := by
  refine ⟨?_, ?_, ?_⟩
  · intro h
    unfold get_legal_moves get_tile
    rw [h]
    rfl
  · intro h
    unfold get_legal_moves get_tile
    rw [h]
    cases onBoard (q, r) <;> rfl
  · intro pc pk h hne
    unfold get_legal_moves get_tile
    rw [h]
    cases onBoard (q, r)
    · rfl
    · simp [hne]

/-- Witness for C10 at concrete inputs: off-board `(6,0)`, the empty
initial cell `(0,0)`, and the black pawn cell `(0,-1)` with White to
move, all yield the empty move list. -/
theorem claim_C10_witness :
    get_legal_moves initialBoard .white 6 0 = [] ∧
    get_legal_moves initialBoard .white 0 0 = [] ∧
    get_legal_moves initialBoard .white 0 (-1) = [] :=
  ⟨(claim_C10_theorem initialBoard .white 6 0).1 (by decide),
   (claim_C10_theorem initialBoard .white 0 0).2.1 (by decide),
   (claim_C10_theorem initialBoard .white 0 (-1)).2.2 .black .pawn
     (by decide) (by decide)⟩

/-- C7: on a checkmated board `evaluate_position` returns `-100000` when
the side to move is White and `+100000` when it is Black; on a stalemated
board it returns 0; both terminal branches return before any material,
positional or mobility term is added. -/
theorem claim_C7_theorem (b : Board) :
    (get_game_status b = .checkmate →
      evaluate_position b =
        if b.current_turn = .white then -100000 else 100000) ∧
    (get_game_status b = .stalemate → evaluate_position b = 0) := by
  constructor
  · intro h
    unfold evaluate_position
    rw [h]
    simp
  · intro h
    unfold evaluate_position
    rw [h]
    simp

/-- Witness for C7 at concrete inputs: the cornered-king mate board and
the stalemate board. -/
theorem claim_C7_witness :
    get_game_status Bmate = .checkmate ∧
    evaluate_position Bmate =
      (if Bmate.current_turn = .white then -100000 else 100000) ∧
    get_game_status Bstale = .stalemate ∧
    evaluate_position Bstale = 0 :=
  ⟨by decide, (claim_C7_theorem Bmate).1 (by decide),
   by decide, (claim_C7_theorem Bstale).2 (by decide)⟩

theorem getLastD_cons {α : Type} (a d : α) (l : List α) :
    ((a :: l).getLast?).getD d = (l.getLast?).getD a := by
  induction l generalizing a d with
  | nil => rfl
  | cons x xs ih =>
    rw [List.getLast?_cons_cons]
    rw [ih x d, ← ih x a]

theorem gbm_loop_eq (clock : Clock) :
    ∀ (ds : List Nat) (best : Option Move) (s : SState),
    (gbm_loop clock ds best s).1 =
      ((completed_bests clock ds s).getLast?).getD best := by
  intro ds
  induction ds with
  | nil => intro best s; rfl
  | cons d rest ih =>
    intro best s
    simp only [gbm_loop, completed_bests]
    cases hc : clock ((tick s).clockIdx - 1)
    · cases hr : minimax_root clock d (tick s) with
      | ok p =>
        obtain ⟨r, s2⟩ := p
        simp [hc, hr, ih r.2 s2, getLastD_cons]
      | error e =>
        simp [hc, hr]
    · simp [hc]

/-- C8: for every board, depth bound and clock behaviour, `get_best_move`
returns exactly the best move recorded by the last root iteration that
completed (or `none` when none completed): an in-flight iteration
interrupted by `TimeoutError` contributes nothing, and — `get_best_move`
being a total function into `Option Move` that catches the root's
`Except` error — the timeout never escapes to the caller. -/
theorem claim_C8_theorem (clock : Clock) (b : Board) (depth : Nat) :
    (get_best_move clock b depth).1 =
      ((completed_bests clock (depth_list depth) (init_sstate b)).getLast?).getD
        none :=
  gbm_loop_eq clock (depth_list depth) none (init_sstate b)

/-- C1 fails on the code: with two bare kings and a deadline that expires
at the first recursive `_minimax` entry (the third poll), the in-flight
root move `(0,5) → (-1,5)` is never undone — the `TimeoutError` skips
`_undo_move` — so after `get_best_move` returns (with no move), the white
king stands on `(-1,5)`, its origin is empty, and the turn is flipped to
Black, unlike the pre-call board. -/
theorem claim_C1_theorem :
    (get_best_move clk_c1 B1 3).1 = none ∧
    B1.piece (0, 5) = some (Color.white, PieceKind.king) ∧
    B1.piece (-1, 5) = none ∧
    B1.current_turn = Color.white ∧
    (get_best_move clk_c1 B1 3).2.board.piece (0, 5) = none ∧
    (get_best_move clk_c1 B1 3).2.board.piece (-1, 5) =
      some (Color.white, PieceKind.king) ∧
    (get_best_move clk_c1 B1 3).2.board.current_turn = Color.black := by
  decide

theorem valid_and_empty (b : Board) (c : Coord) :
    (is_valid_tile b c && is_empty b c) = is_empty b c := by
  unfold is_valid_tile is_empty get_tile
  cases h : onBoard c <;> simp

theorem valid_and_capture (b : Board) (c : Coord) (col : Color) :
    (is_valid_tile b c && can_capture b c col) = can_capture b c col := by
  unfold is_valid_tile can_capture is_enemy get_tile
  cases h : onBoard c <;> simp

theorem get_legal_moves_eq_piece_moves {b : Board} {q r : Int} {pc : Color}
    {pk : PieceKind} (hp : get_tile b (q, r) = some (some (pc, pk))) :
    get_legal_moves b pc q r = piece_moves b q r pc pk := by
  unfold get_legal_moves
  rw [hp]
  simp

/-- C2 as stated fails on `MoveValidator.get_legal_moves` of
`move_validator.py`: on the pin board `B2` the white rook move
`(0,1) → (1,1)` is in the list but exposes the white king on `(0,0)` to
the black rook on `(0,2)`. -/
theorem claim_C2_counterexample : ¬ claimC2 := fun h =>
  absurd (h B2 0 1 (1, 1) (by decide)) (by decide)

/-- C2 amended: `MoveValidator.get_legal_moves` is only pseudo-legal and
can leave the mover in check, but every move produced by the engine's
`_get_all_legal_moves` — which filters through `simulate_move` — leaves
the moving side's king unattacked after it is applied. -/
theorem claim_C2_theorem (b : Board) (color : Color) (m : Move)
    (h : m ∈ get_all_legal_moves b color) :
    in_check (make_move_t b m.1.1 m.1.2 m.2.1 m.2.2).1 color = false := by
  unfold get_all_legal_moves at h
  rcases List.mem_flatMap.mp h with ⟨c, _, hm⟩
  rcases hg : get_tile b c with _ | op
  · rw [hg] at hm; simp at hm
  · rcases op with _ | ⟨pc, pk⟩
    · rw [hg] at hm; simp at hm
    · rw [hg] at hm
      have hm2 : m ∈ (if pc = color then
          ((gen_legal_moves b c.1 c.2).filter
            (fun t => simulate_move b color c.1 c.2 t.1 t.2)).map
            (fun t => (c, t))
        else []) := hm
      by_cases hpc : pc = color
      · rw [if_pos hpc] at hm2
        rcases List.mem_map.mp hm2 with ⟨t, ht, heq⟩
        have hs := (List.mem_filter.mp ht).2
        subst heq
        unfold simulate_move at hs
        simpa using hs
      · rw [if_neg hpc] at hm2; simp at hm2

/-- Witness for the amended C2 at a concrete input: the king move
`(0,5) → (-1,5)` on the two-kings board is produced by
`_get_all_legal_moves` and leaves White out of check. -/
theorem claim_C2_witness :
    ((0, 5), ((-1 : Int), (5 : Int))) ∈ get_all_legal_moves B1 Color.white ∧
    in_check (make_move_t B1 0 5 (-1) 5).1 Color.white = false :=
  ⟨by decide, claim_C2_theorem B1 Color.white ((0, 5), (-1, 5)) (by decide)⟩

/-- C4 as stated fails on the code: the white pawn at the origin of `B4`
is given the non-capturing move `(1,-1)` (an empty cell), which the claim
allows neither as its single forward cell `(0,-1)` nor as an occupied
capture cell. -/
theorem claim_C4_counterexample : ¬ claimC4 := fun h =>
  absurd (h.1 B4 0 0 (by decide) (1, -1) (by decide)) (by decide)

/-- C4 amended to what `_get_pawn_moves` does: a pawn moves without
capturing to each of the three `forward_dirs` cells that is empty
(White `(0,-1),(+1,-1),(-1,0)`; Black `(0,+1),(-1,+1),(+1,0)`) and
captures on each of the three `capture_dirs` cells that holds an enemy
(White `(+1,-2),(-1,+1),(+1,+1)`; Black `(-1,+2),(+1,-1),(-1,-1)`); no
other destinations are produced. -/
theorem claim_C4_theorem (b : Board) (q r : Int) (c : Color) (t : Coord)
    (hp : get_tile b (q, r) = some (some (c, PieceKind.pawn))) :
    (t ∈ get_legal_moves b c q r ↔
      ((∃ d ∈ pawn_forward_dirs c, (q + d.1, r + d.2) = t) ∧
        is_empty b t = true) ∨
      ((∃ d ∈ pawn_capture_dirs c, (q + d.1, r + d.2) = t) ∧
        can_capture b t c = true)) := by
  rw [get_legal_moves_eq_piece_moves hp]
  show t ∈ get_pawn_moves b q r c ↔ _
  simp only [get_pawn_moves, List.mem_append, List.mem_filter, List.mem_map,
    valid_and_empty, valid_and_capture]

/-- Witness for the amended C4 at a concrete input: the white pawn at the
origin of `B4`, with destination `(1,-1)`. -/
theorem claim_C4_witness :
    ((1 : Int), (-1 : Int)) ∈ get_legal_moves B4 Color.white 0 0 ↔
      ((∃ d ∈ pawn_forward_dirs Color.white,
        ((0 : Int) + d.1, (0 : Int) + d.2) = ((1 : Int), (-1 : Int))) ∧
        is_empty B4 (1, -1) = true) ∨
      ((∃ d ∈ pawn_capture_dirs Color.white,
        ((0 : Int) + d.1, (0 : Int) + d.2) = ((1 : Int), (-1 : Int))) ∧
        can_capture B4 (1, -1) Color.white = true) :=
  claim_C4_theorem B4 0 0 Color.white (1, -1) (by decide)

/-- C5 as stated fails on the code: the knight at the origin of `B5` is
given the destination `(2,-1)`, which is not among the 12 spec offsets
(the code uses a 16-entry jump list). -/
theorem claim_C5_counterexample : ¬ claimC5 := fun h =>
  absurd ((h B5 0 0 .white (by decide) (2, -1)).mp (by decide)) (by decide)

/-- C5 amended to what `_get_knight_moves` does: the knight move list is
exactly the subset of the 16 offsets of the code's `knight_jumps` list,
added to the knight's position, that are on-board and empty or
enemy-occupied. -/
theorem claim_C5_theorem (b : Board) (q r : Int) (c : Color) (t : Coord)
    (hp : get_tile b (q, r) = some (some (c, PieceKind.knight))) :
    (t ∈ get_legal_moves b c q r ↔
      (∃ d ∈ knight_jumps, (q + d.1, r + d.2) = t) ∧
        is_valid_tile b t = true ∧
        (is_empty b t || can_capture b t c) = true) := by
  rw [get_legal_moves_eq_piece_moves hp]
  show t ∈ get_knight_moves b q r c ↔ _
  simp only [get_knight_moves, List.mem_filter, List.mem_map,
    Bool.and_eq_true]

/-- Witness for the amended C5 at a concrete input: the knight at the
origin of `B5`, with destination `(2,-1)`. -/
theorem claim_C5_witness :
    ((2 : Int), (-1 : Int)) ∈ get_legal_moves B5 Color.white 0 0 ↔
      (∃ d ∈ knight_jumps,
        ((0 : Int) + d.1, (0 : Int) + d.2) = ((2 : Int), (-1 : Int))) ∧
        is_valid_tile B5 (2, -1) = true ∧
        (is_empty B5 (2, -1) || can_capture B5 (2, -1) Color.white) = true :=
  claim_C5_theorem B5 0 0 Color.white (2, -1) (by decide)

theorem material_foldl (b : Board) :
    ∀ (l : List Coord) (w bk : Int),
    (l.foldl (fun acc c =>
      match get_tile b c with
      | some (some (.white, name)) => (acc.1 + PIECE_VALUES name, acc.2)
      | some (some (.black, name)) => (acc.1, acc.2 + PIECE_VALUES name)
      | _ => acc) (w, bk)).1 -
    (l.foldl (fun acc c =>
      match get_tile b c with
      | some (some (.white, name)) => (acc.1 + PIECE_VALUES name, acc.2)
      | some (some (.black, name)) => (acc.1, acc.2 + PIECE_VALUES name)
      | _ => acc) (w, bk)).2 =
    (w - bk) + (l.map (fun c =>
      match get_tile b c with
      | some (some (color, name)) =>
        if color = .white then PIECE_VALUES name else -PIECE_VALUES name
      | _ => 0)).sum := by
  intro l
  induction l with
  | nil => intro w bk; simp
  | cons c cs ih =>
    intro w bk
    simp only [List.foldl_cons, List.map_cons, List.sum_cons]
    rcases hg : get_tile b c with _ | op
    · simp only [hg]
      rw [ih w bk]
      ring
    · rcases op with _ | ⟨color, name⟩
      · simp only [hg]
        rw [ih w bk]
        ring
      · cases color
        · simp only [hg]
          rw [ih (w + PIECE_VALUES name) bk]
          simp only [if_true]
          ring
        · simp only [hg]
          rw [ih w (bk + PIECE_VALUES name),
            if_neg (by decide : ¬(Color.black = Color.white))]
          ring

theorem count_material_diff (b : Board) :
    (count_material b).1 - (count_material b).2 = material_diff b := by
  unfold count_material material_diff
  simpa using material_foldl b allCells 0 0

set_option maxRecDepth 40000 in
/-- C6 as stated fails on the code: on the lone-knight board `B6` (not
terminal) `evaluate_position` returns 392 while material + center control
+ mobility is 362 — the code adds full piece-square-table bonuses (the
knight at the origin scores 40, not 10) and a check term. -/
theorem claim_C6_counterexample : ¬ claimC6 := fun h =>
  absurd (h B6 (by decide) (by decide)) (by decide)

/-- C6 amended to what `Evaluator.evaluate_position` does: on non-terminal
boards the evaluation is material difference + piece-square-table sum
(in place of the claimed ±10 center-control term) + mobility difference
times 2 + a check term of -50 when White is in check and +50 when Black
is. -/
theorem claim_C6_theorem (b : Board)
    (h1 : get_game_status b ≠ .checkmate)
    (h2 : get_game_status b ≠ .stalemate) :
    evaluate_position b =
      material_diff b + pst_sum b + mobility_diff b + check_sum b := by
  unfold evaluate_position
  rw [if_neg h1, if_neg h2, count_material_diff]

/-- Witness for the amended C6 at a concrete input: the lone-knight
board. -/
theorem claim_C6_witness :
    get_game_status B6 ≠ GameStatus.checkmate ∧
    get_game_status B6 ≠ GameStatus.stalemate ∧
    evaluate_position B6 =
      material_diff B6 + pst_sum B6 + mobility_diff B6 + check_sum B6 :=
  ⟨by decide, by decide, claim_C6_theorem B6 (by decide) (by decide)⟩

/-- C9 as stated fails on the code: from the initial position the pawn
push `(0,1) → (0,-1)` is not among the three legal destinations of that
pawn, yet `HexBoard.move_piece` returns `True` and moves the piece. -/
theorem claim_C9_counterexample : ¬ claimC9 := fun h =>
  absurd (congrArg Prod.fst (h initialBoard 0 1 0 (-1) (by decide)))
    (by decide)

/-- C9 amended to what `HexBoard.move_piece` of `main.py` does: it
reports success exactly when both coordinates are on the board, the
source tile is occupied and source ≠ destination — legality is never
consulted; on failure the board is unchanged, and on success the moving
piece (whatever it is) lands on the destination, the source is cleared
and the turn field is untouched. -/
theorem claim_C9_theorem (b : Board) (fq fr tq tr : Int) :
    (move_piece b fq fr tq tr).1 =
      (onBoard (fq, fr) && onBoard (tq, tr) &&
        (b.piece (fq, fr)).isSome && decide ((fq, fr) ≠ (tq, tr))) ∧
    ((move_piece b fq fr tq tr).1 = false →
      (move_piece b fq fr tq tr).2 = b) ∧
    ((move_piece b fq fr tq tr).1 = true →
      (move_piece b fq fr tq tr).2.piece (tq, tr) = b.piece (fq, fr) ∧
      (move_piece b fq fr tq tr).2.piece (fq, fr) = none ∧
      (move_piece b fq fr tq tr).2.current_turn = b.current_turn) := by
  have hsymm : ((tq, tr) = (fq, fr)) ↔ ((fq, fr) = (tq, tr)) := eq_comm
  unfold move_piece get_tile
  cases h1 : onBoard (fq, fr) <;> cases h2 : onBoard (tq, tr) <;>
    cases h3 : (b.piece (fq, fr)).isSome <;>
    by_cases h4 : (fq, fr) = (tq, tr) <;>
    simp [h1, h2, h3, h4, hsymm]

/-- Witness for the amended C9 at a concrete input: the illegal pawn push
`(0,1) → (0,-1)` from the initial position. -/
theorem claim_C9_witness :
    (move_piece initialBoard 0 1 0 (-1)).1 =
      (onBoard (0, 1) && onBoard (0, -1) &&
        (initialBoard.piece (0, 1)).isSome &&
        decide (((0 : Int), (1 : Int)) ≠ ((0 : Int), (-1 : Int)))) ∧
    ((move_piece initialBoard 0 1 0 (-1)).1 = false →
      (move_piece initialBoard 0 1 0 (-1)).2 = initialBoard) ∧
    ((move_piece initialBoard 0 1 0 (-1)).1 = true →
      (move_piece initialBoard 0 1 0 (-1)).2.piece (0, -1) =
        initialBoard.piece (0, 1) ∧
      (move_piece initialBoard 0 1 0 (-1)).2.piece (0, 1) = none ∧
      (move_piece initialBoard 0 1 0 (-1)).2.current_turn =
        initialBoard.current_turn) :=
  claim_C9_theorem initialBoard 0 1 0 (-1)

end HexChess
